import Mathlib

/-!
# Verification of the portfolio ledger in `project.py`

A shallow embedding of the core `Portfolio` logic of the repository:
the PostgreSQL tables (`cash_transactions`, `transactions`, `holdings`,
`realised_delta`) become Lean structures, SQL `DECIMAL(15,2)` storage
coercion becomes explicit rounding to two decimal places, `CHECK`
constraints become guarded inserts/updates that can fail, and the
connection-scoped transaction (commit on `__exit__`, `rollback()` on
error) becomes an explicit pair of ledgers (last-committed `base` and
pending `cur`).  Python `float` arithmetic is idealised as exact
rational arithmetic; PostgreSQL `numeric` arithmetic is exact rational
arithmetic with `ROUND(expr, 2)` modelled by `round2`.
-/

/-- PostgreSQL `numeric` rounding to an integer: round half away from zero
(`round(2.5) = 3`, `round(-2.5) = -3`). -/
def roundHalfAway (x : ℚ) : ℤ :=
  if 0 ≤ x then ⌊x + 1/2⌋ else -⌊-x + 1/2⌋

/-- Coercion of a value into a `DECIMAL(15,2)` column (and `ROUND(expr, 2)`):
round to two decimal places, half away from zero. -/
def round2 (x : ℚ) : ℚ :=
  (roundHalfAway (x * 100) : ℚ) / 100

/-- A row of the `cash_transactions` table (column `id` omitted: no code path
reads it).  `type` is one of `'DEP'`, `'WIT'`, `'BUY'`, `'SELL'` (CHECK). -/
structure CashTx where
  amount : ℚ
  ttype : String
  date : String
deriving DecidableEq, Repr

/-- A row of the `transactions` table. -/
structure TradeTx where
  id : ℕ
  ticker : String
  price : ℚ
  quantity : ℚ
  ttype : String
  cash_impact : ℚ
  date : String
deriving DecidableEq, Repr

/-- A row of the `holdings` table, keyed by ticker (primary key held
separately in the ledger's association list).  `unrealised_delta` is a
generated column (`current_value - cost_basis`), never stored independently. -/
structure Holding where
  quantity : ℚ
  average_purchase_price : ℚ
  current_price : ℚ
  cost_basis : ℚ
  current_value : ℚ
deriving DecidableEq, Repr

/-- A row of the `realised_delta` table. -/
structure RealisedTx where
  transaction_id : ℕ
  ticker : String
  delta : ℚ
  date : String
deriving DecidableEq, Repr

/-- The four tables of the ledger store created by `init_db`. -/
structure Ledger where
  cash : List CashTx
  trades : List TradeTx
  holdings : List (String × Holding)
  realised : List RealisedTx
deriving DecidableEq, Repr

/-- The empty database, as after `init_db` on a fresh store. -/
def Ledger.empty : Ledger := ⟨[], [], [], []⟩

/-- `SELECT ... FROM holdings WHERE ticker = t` (primary-key lookup). -/
def findHolding : List (String × Holding) → String → Option Holding
  | [], _ => none
  | (t', h) :: rest, t => if t' = t then some h else findHolding rest t

/-- `UPDATE holdings SET ... WHERE ticker = t` / the `DO UPDATE` arm of the
upsert: replace the row keyed `t` (other rows untouched). -/
def setHolding : List (String × Holding) → String → Holding → List (String × Holding)
  | [], _, _ => []
  | (t', h') :: rest, t, h =>
      if t' = t then (t', h) :: rest else (t', h') :: setHolding rest t h

/-- The `CHECK` constraints of the `holdings` table, evaluated on a row as
stored: `quantity >= 0`, `average_purchase_price > 0`, `current_price > 0`,
`cost_basis >= 0`, `current_value >= 0`. -/
def holdingChecks (h : Holding) : Prop :=
  0 ≤ h.quantity ∧ 0 < h.average_purchase_price ∧ 0 < h.current_price ∧
    0 ≤ h.cost_basis ∧ 0 ≤ h.current_value

instance (h : Holding) : Decidable (holdingChecks h) := by
  unfold holdingChecks; infer_instance

/-- External collaborators of the engine: the yfinance price oracle
(`get_stock_price`), `datetime.strptime` date validation and
`datetime.now()`.  `known t = false` models `get_stock_price` raising
`ValueError` for an invalid ticker; `price t` models
`get_stock_price(t)` and `priceOn t d` models `get_stock_price(t, d)`. -/
structure Env where
  known : String → Bool
  price : String → ℚ
  priceOn : String → String → ℚ
  dateOk : String → Bool
  today : String

/-- `SELECT COALESCE(SUM(amount), 0) FROM cash_transactions` (the
`cash_balance` property). -/
def cash_balance (l : Ledger) : ℚ :=
  (l.cash.map CashTx.amount).sum

/-- `INSERT INTO cash_transactions (amount, type) VALUES (a, ty)`: the
amount is coerced into `DECIMAL(15,2)`; the `CHECK` on `type` can fail. -/
def insertCash (env : Env) (amount : ℚ) (ty : String) (l : Ledger) : Except Unit Ledger :=
  if ty = "DEP" ∨ ty = "WIT" ∨ ty = "BUY" ∨ ty = "SELL" then
    .ok { l with cash := l.cash ++ [⟨round2 amount, ty, env.today⟩] }
  else .error ()

/-- `INSERT INTO transactions ... RETURNING id`: values are coerced into
`DECIMAL(15,2)`; the `CHECK`s `price > 0`, `quantity > 0` and
`type IN ('BUY','SELL')` can fail.  The returned `id` of the new row is
`l.trades.length + 1` (SERIAL, computed by the caller). -/
def insertTrade (ticker : String) (price quantity : ℚ) (ttype : String)
    (cash_impact : ℚ) (date : String) (l : Ledger) : Except Unit Ledger :=
  if 0 < round2 price ∧ 0 < round2 quantity ∧ (ttype = "BUY" ∨ ttype = "SELL") then
    .ok { l with trades :=
      l.trades ++ [⟨l.trades.length + 1, ticker, round2 price, round2 quantity, ttype,
        round2 cash_impact, date⟩] }
  else .error ()

/-- The new `holdings` row written by the upsert's `DO UPDATE` arm on a BUY
of raw quantity `q` at raw price `p` with oracle price `cp`, on top of the
existing row `h0` (`EXCLUDED.*` are the coerced inserted values
`round2 q`, `round2 p`, `round2 cp`); each `SET` expression is coerced on
assignment, with the source's explicit `ROUND(..., 2)` where present. -/
def buyUpdatedHolding (h0 : Holding) (q p cp : ℚ) : Holding :=
  { quantity := round2 (h0.quantity + round2 q)
    average_purchase_price :=
      round2 ((h0.quantity * h0.average_purchase_price + round2 q * round2 p) /
        (h0.quantity + round2 q))
    current_price := round2 cp
    cost_basis := round2 (h0.cost_basis + round2 q * round2 p)
    current_value := round2 ((h0.quantity + round2 q) * round2 cp) }

/-- `Portfolio._update_holdings_on_buy`: upsert into `holdings`.  On the
insert arm the `VALUES` row `(ticker, q, p, cp, q*p, q*cp)` is coerced
column-wise to `DECIMAL(15,2)`; on the conflict arm the row becomes
`buyUpdatedHolding`.  The table's `CHECK` constraints can fail. -/
def updateHoldingsOnBuy (ticker : String) (quantity price current_price : ℚ)
    (l : Ledger) : Except Unit Ledger :=
  match findHolding l.holdings ticker with
  | none =>
      if holdingChecks ⟨round2 quantity, round2 price, round2 current_price,
          round2 (quantity * price), round2 (quantity * current_price)⟩ then
        .ok { l with holdings := l.holdings ++ [(ticker,
          ⟨round2 quantity, round2 price, round2 current_price,
            round2 (quantity * price), round2 (quantity * current_price)⟩)] }
      else .error ()
  | some h0 =>
      if holdingChecks (buyUpdatedHolding h0 quantity price current_price) then
        .ok { l with holdings := setHolding l.holdings ticker (buyUpdatedHolding h0 quantity price current_price) }
      else .error ()

/-- The `holdings` row after the SELL `UPDATE` of raw quantity `q` with
oracle price `cp` on top of the existing row `h0`: quantity decreased,
cost basis rescaled by the remaining fraction, value recomputed,
`average_purchase_price` not in the `SET` list hence unchanged.  The bound
parameters (`%s::numeric`) carry the raw Python values; each assigned
expression is coerced into its `DECIMAL(15,2)` column. -/
def sellUpdatedHolding (h0 : Holding) (q cp : ℚ) : Holding :=
  { quantity := round2 (h0.quantity - q)
    average_purchase_price := h0.average_purchase_price
    current_price := round2 cp
    cost_basis := round2 ((h0.cost_basis / h0.quantity) * (h0.quantity - q))
    current_value := round2 ((h0.quantity - q) * cp) }

/-- `Portfolio._update_holdings_on_sell`: the `UPDATE ... WHERE ticker = t`,
writing `sellUpdatedHolding` over the matching row.  If no row matches,
zero rows are updated and the statement succeeds. -/
def updateHoldingsOnSell (ticker : String) (quantity price current_price : ℚ)
    (l : Ledger) : Except Unit Ledger :=
  match findHolding l.holdings ticker with
  | none => .ok l
  | some h0 =>
      if holdingChecks (sellUpdatedHolding h0 quantity current_price) then
        .ok { l with holdings := setHolding l.holdings ticker (sellUpdatedHolding h0 quantity current_price) }
      else .error ()

/-- The result of a Python `raise` site of the engine, per the spec's
error taxonomy. -/
inductive PortErr where
  | invalidArgument
  | insufficientFunds
  | insufficientShares
  | unknownTicker
deriving DecidableEq, Repr

/-- An exception inside the `try` block of `record_transaction` /
`update_cash`: a Python `ValueError` raised by the engine's own validation,
or a database error (`CHECK` violation or other persistence failure). -/
inductive Exn where
  | valueError (e : PortErr)
  | dbError
deriving DecidableEq, Repr

/-- `Portfolio._validate_sale`: raises `ValueError` (insufficient shares)
when the ticker has no `holdings` row or the stored quantity is strictly
below the requested quantity. -/
def validate_sale (l : Ledger) (ticker : String) (quantity : ℚ) : Except Exn Unit :=
  match findHolding l.holdings ticker with
  | none => .error (.valueError .insufficientShares)
  | some h => if h.quantity < quantity then .error (.valueError .insufficientShares) else .ok ()

/-- `Portfolio._get_average_purchase_price`.  (The code's `fetchone()[0]`
presupposes the row exists, which `_validate_sale` has established on every
reachable call; `0` is returned on the unreachable missing-row case.) -/
def getAveragePurchasePrice (l : Ledger) (ticker : String) : ℚ :=
  match findHolding l.holdings ticker with
  | some h => h.average_purchase_price
  | none => 0

/-- `INSERT INTO realised_delta (transaction_id, ticker, delta, date)`:
the delta is coerced into `DECIMAL(15,2)`. -/
def insertRealisedDelta (transaction_id : ℕ) (ticker : String) (delta : ℚ)
    (date : String) (l : Ledger) : Except Unit Ledger :=
  .ok { l with realised := l.realised ++ [⟨transaction_id, ticker, round2 delta, date⟩] }

/-- One scoped connection (`Portfolio.__enter__` .. `__exit__`): `base` is
the store as of the last commit, `cur` the pending uncommitted state.
`stmtCount`/`failAt` inject an arbitrary persistence-layer failure at the
`failAt`-th mutating statement of the session (`none`: no failure). -/
structure Session where
  base : Ledger
  cur : Ledger
  stmtCount : ℕ
  failAt : Option ℕ
deriving DecidableEq, Repr

/-- A fresh session on a given committed store. -/
def Session.open (l : Ledger) : Session := ⟨l, l, 0, none⟩

/-- `self._conn.rollback()`: discard every uncommitted statement of the
session, restoring the state as of the last commit. -/
def Session.rollback (s : Session) : Session := { s with cur := s.base }

/-- `self._conn.commit()` (performed by `__exit__` on clean exit). -/
def Session.commit (s : Session) : Session := { s with base := s.cur }

/-- Execute one mutating SQL statement on the session: it raises a
database error if the injected persistence failure hits this statement or
the statement itself fails a constraint. -/
def runStmt (s : Session) (f : Ledger → Except Unit Ledger) : Except Exn Session :=
  if s.failAt = some s.stmtCount then .error .dbError
  else
    match f s.cur with
    | .ok l => .ok { s with cur := l, stmtCount := s.stmtCount + 1 }
    | .error _ => .error .dbError

/-- The observable outcome of an engine call: a raised typed error, or a
returned boolean. -/
inductive Outcome where
  | raised (e : PortErr)
  | returned (b : Bool)
deriving DecidableEq, Repr

/-- `Portfolio.update_cash(amount, trans_type)`, translated line by line:
the three validations raise (leaving the pending state untouched); the
insert runs under `try`, any exception there rolling the session back and
returning `False`. -/
def update_cash (env : Env) (amount : ℚ) (trans_type : String) (s : Session) :
    Outcome × Session :=
  if amount ≤ 0 then (.raised .invalidArgument, s)
  else if ¬(trans_type = "DEP" ∨ trans_type = "WIT") then (.raised .invalidArgument, s)
  else
    let balance := cash_balance s.cur
    if trans_type = "WIT" ∧ balance < amount then (.raised .insufficientFunds, s)
    else
      match runStmt s (insertCash env (if trans_type = "DEP" then amount else -amount) trans_type) with
      | .ok s' => (.returned true, s')
      | .error _ => (.returned false, s.rollback)

/-- The `try` block of `Portfolio.record_transaction` (everything between
`try:` and `except Exception`), with the new trade's SERIAL id `tid`
computed by `RETURNING id`. -/
def rtBody (env : Env) (ticker : String) (quantity : ℚ) (trans_type : String)
    (transaction_date : String) (price current_price value : ℚ) (s : Session) :
    Except Exn Session :=
  let tid := s.cur.trades.length + 1
  match runStmt s (insertTrade ticker price quantity trans_type
      (if trans_type = "SELL" then value else -value) transaction_date) with
  | .error e => .error e
  | .ok s1 =>
    if trans_type = "BUY" then
      match runStmt s1 (updateHoldingsOnBuy ticker quantity price current_price) with
      | .error e => .error e
      | .ok s2 =>
        match runStmt s2 (insertCash env (-value) "BUY") with
        | .error e => .error e
        | .ok s3 => .ok s3
    else
      match validate_sale s1.cur ticker quantity with
      | .error e => .error e
      | .ok _ =>
        let avg_price := getAveragePurchasePrice s1.cur ticker
        match runStmt s1 (updateHoldingsOnSell ticker quantity price current_price) with
        | .error e => .error e
        | .ok s2 =>
          match runStmt s2 (insertCash env value "SELL") with
          | .error e => .error e
          | .ok s3 =>
            let realised_delta := quantity * (price - avg_price)
            runStmt s3 (insertRealisedDelta tid ticker realised_delta transaction_date)

/-- The local `transaction_date` of `record_transaction`: the given date if
provided, else today. -/
def effDate (env : Env) (date : Option String) : String :=
  match date with | some d => d | none => env.today

/-- The local `price` of `record_transaction`: `manual_price` if provided
(truthy), else the oracle price for the effective date. -/
def effPrice (env : Env) (ticker : String) (date : Option String)
    (manual_price : Option ℚ) : ℚ :=
  match manual_price with | some p => p | none => env.priceOn ticker (effDate env date)

/-- `Portfolio.record_transaction(ticker, quantity, trans_type, date,
manual_price)`, translated line by line.  The four validations and the
BUY insufficient-funds check raise before the `try` block (pending state
untouched); every exception inside the `try` block — including the
`ValueError` of `_validate_sale` — is caught by `except Exception`,
rolls the session back and returns `False`. -/
def record_transaction (env : Env) (ticker : String) (quantity : ℚ)
    (trans_type : String) (date : Option String) (manual_price : Option ℚ)
    (s : Session) : Outcome × Session :=
  if quantity ≤ 0 then (.raised .invalidArgument, s)
  else if (match manual_price with | some p => decide (p ≤ 0) | none => false) then
    (.raised .invalidArgument, s)
  else if (match date with | some d => !env.dateOk d | none => false) then
    (.raised .invalidArgument, s)
  else if env.known ticker = false then (.raised .unknownTicker, s)
  else
    let current_price := env.price ticker
    let transaction_date := effDate env date
    let price := effPrice env ticker date manual_price
    let balance := cash_balance s.cur
    let value := price * quantity
    if trans_type = "BUY" ∧ balance < value then (.raised .insufficientFunds, s)
    else
      match rtBody env ticker quantity trans_type transaction_date price current_price value s with
      | .ok s' => (.returned true, s')
      | .error _ => (.returned false, s.rollback)

/-! ## Arithmetic facts about two-decimal rounding -/

theorem roundHalfAway_intCast (n : ℤ) : roundHalfAway (n : ℚ) = n := by
  unfold roundHalfAway
  split_ifs with h
  · rw [Int.floor_int_add]
    norm_num
  · rw [show (-(n:ℚ) + 1/2 : ℚ) = ((-n : ℤ) : ℚ) + 1/2 by push_cast; ring,
      Int.floor_int_add]
    norm_num

theorem round2_int_div_100 (n : ℤ) : round2 ((n : ℚ) / 100) = (n : ℚ) / 100 := by
  unfold round2
  rw [show ((n:ℚ)/100 * 100 : ℚ) = (n : ℚ) by field_simp, roundHalfAway_intCast]

theorem round2_zero : round2 0 = 0 := by
  simpa using round2_int_div_100 0

/-- Values fixed by `round2` are exactly the integer multiples of `1/100`. -/
theorem round2_fix_iff (x : ℚ) : round2 x = x ↔ ∃ n : ℤ, x = (n : ℚ) / 100 := by
  constructor
  · intro h
    refine ⟨roundHalfAway (x * 100), ?_⟩
    nth_rewrite 1 [← h]
    unfold round2
    ring
  · rintro ⟨n, rfl⟩
    exact round2_int_div_100 n

theorem round2_fix_add {a b : ℚ} (ha : round2 a = a) (hb : round2 b = b) :
    round2 (a + b) = a + b := by
  obtain ⟨n, rfl⟩ := (round2_fix_iff a).mp ha
  obtain ⟨m, rfl⟩ := (round2_fix_iff b).mp hb
  rw [show (n:ℚ)/100 + (m:ℚ)/100 = ((n + m : ℤ) : ℚ)/100 by push_cast; ring]
  exact round2_int_div_100 _

theorem round2_nonneg {x : ℚ} (h : 0 ≤ x) : 0 ≤ round2 x := by
  unfold round2 roundHalfAway
  rw [if_pos (by positivity)]
  have : (0 : ℤ) ≤ ⌊x * 100 + 1/2⌋ := Int.le_floor.mpr (by positivity)
  positivity

theorem round2_neg (x : ℚ) : round2 (-x) = -round2 x := by
  unfold round2 roundHalfAway
  rcases lt_trichotomy x 0 with h | rfl | h
  · rw [if_pos (by linarith), if_neg (by linarith)]
    push_cast
    ring
  · norm_num
  · rw [if_neg (by linarith), if_pos (by linarith)]
    push_cast
    ring

/-! ## Inversion lemmas for the store statements -/

theorem runStmt_ok {s : Session} {f : Ledger → Except Unit Ledger} {s' : Session}
    (h : runStmt s f = .ok s') :
    ∃ l, f s.cur = .ok l ∧
      s' = { base := s.base, cur := l, stmtCount := s.stmtCount + 1, failAt := s.failAt } := by
  unfold runStmt at h
  split_ifs at h
  revert h
  split
  · rename_i l hl
    intro h
    exact ⟨l, hl, by simpa using h.symm⟩
  · intro h
    exact absurd h (by simp)

theorem insertCash_ok {env : Env} {a : ℚ} {ty : String} {l l' : Ledger}
    (h : insertCash env a ty l = .ok l') :
    l' = { l with cash := l.cash ++ [⟨round2 a, ty, env.today⟩] } := by
  unfold insertCash at h
  split_ifs at h
  simpa using h.symm

theorem insertTrade_ok {t : String} {p q : ℚ} {ty : String} {ci : ℚ} {dt : String}
    {l l' : Ledger} (h : insertTrade t p q ty ci dt l = .ok l') :
    0 < round2 p ∧ 0 < round2 q ∧ (ty = "BUY" ∨ ty = "SELL") ∧
      l' = { l with trades :=
        l.trades ++ [⟨l.trades.length + 1, t, round2 p, round2 q, ty, round2 ci, dt⟩] } := by
  unfold insertTrade at h
  split_ifs at h with hc
  exact ⟨hc.1, hc.2.1, hc.2.2, by simpa using h.symm⟩

theorem validate_sale_ok {l : Ledger} {t : String} {q : ℚ}
    (h : validate_sale l t q = .ok ()) :
    ∃ h0, findHolding l.holdings t = some h0 ∧ q ≤ h0.quantity := by
  unfold validate_sale at h
  revert h
  split
  · intro h; exact absurd h (by simp)
  · intro h
    split_ifs at h with hq
    exact ⟨_, by assumption, le_of_not_lt hq⟩

theorem updateHoldingsOnSell_ok {t : String} {q p cp : ℚ} {l l' : Ledger} {h0 : Holding}
    (hf : findHolding l.holdings t = some h0)
    (h : updateHoldingsOnSell t q p cp l = .ok l') :
    l' = { l with holdings := setHolding l.holdings t (sellUpdatedHolding h0 q cp) } := by
  simp only [updateHoldingsOnSell, hf] at h
  split_ifs at h
  simpa using h.symm

theorem updateHoldingsOnBuy_ok_some {t : String} {q p cp : ℚ} {l l' : Ledger} {h0 : Holding}
    (hf : findHolding l.holdings t = some h0)
    (h : updateHoldingsOnBuy t q p cp l = .ok l') :
    l' = { l with holdings := setHolding l.holdings t (buyUpdatedHolding h0 q p cp) } := by
  simp only [updateHoldingsOnBuy, hf] at h
  split_ifs at h
  simpa using h.symm

theorem updateHoldingsOnBuy_ok_none {t : String} {q p cp : ℚ} {l l' : Ledger}
    (hf : findHolding l.holdings t = none)
    (h : updateHoldingsOnBuy t q p cp l = .ok l') :
    l' = { l with holdings := l.holdings ++
      [(t, ⟨round2 q, round2 p, round2 cp, round2 (q * p), round2 (q * cp)⟩)] } := by
  simp only [updateHoldingsOnBuy, hf] at h
  split_ifs at h
  simpa using h.symm

theorem insertRealisedDelta_ok {tid : ℕ} {t : String} {delta : ℚ} {dt : String}
    {l l' : Ledger} (h : insertRealisedDelta tid t delta dt l = .ok l') :
    l' = { l with realised := l.realised ++ [⟨tid, t, round2 delta, dt⟩] } := by
  unfold insertRealisedDelta at h
  simpa using h.symm

theorem findHolding_setHolding_self {hs : List (String × Holding)} {t : String}
    {h0 : Holding} (hf : findHolding hs t = some h0) (h : Holding) :
    findHolding (setHolding hs t h) t = some h := by
  induction hs with
  | nil => simp [findHolding] at hf
  | cons pr rest ih =>
    obtain ⟨t', h'⟩ := pr
    by_cases ht : t' = t
    · simp [findHolding, setHolding, ht]
    · simp only [findHolding, setHolding, if_neg ht] at hf ⊢
      exact ih hf

theorem findHolding_append_none {hs : List (String × Holding)} {t : String}
    (hf : findHolding hs t = none) (h : Holding) :
    findHolding (hs ++ [(t, h)]) t = some h := by
  induction hs with
  | nil => simp [findHolding]
  | cons pr rest ih =>
    obtain ⟨t', h'⟩ := pr
    by_cases ht : t' = t
    · simp [findHolding, ht] at hf
    · simp only [findHolding, List.cons_append, if_neg ht] at hf ⊢
      exact ih hf

/-! ## Inversion of a successful `record_transaction` call -/

theorem record_transaction_ok_inv {env : Env} {t : String} {q : ℚ} {ty : String}
    {d : Option String} {mp : Option ℚ} {s s' : Session}
    (h : record_transaction env t q ty d mp s = (.returned true, s')) :
    rtBody env t q ty (effDate env d) (effPrice env t d mp) (env.price t)
      (effPrice env t d mp * q) s = .ok s' := by
  simp only [record_transaction] at h
  split_ifs at h
  · exact absurd h (by simp)
  · exact absurd h (by simp)
  · exact absurd h (by simp)
  · exact absurd h (by simp)
  · exact absurd h (by simp)
  · revert h
    split
    · rename_i s'' hsc
      intro h
      have hs : s'' = s' := by simpa using h
      rw [← hs]
      exact hsc
    · intro h
      exact absurd h (by simp)

theorem rtBody_sell_ok {env : Env} {t : String} {q : ℚ} {ty : String} {dt : String}
    {p cp v : ℚ} {s s' : Session} (hty : ty ≠ "BUY")
    (h : rtBody env t q ty dt p cp v s = .ok s') :
    ∃ s1 s2 s3,
      runStmt s (insertTrade t p q ty (if ty = "SELL" then v else -v) dt) = .ok s1 ∧
      validate_sale s1.cur t q = .ok () ∧
      runStmt s1 (updateHoldingsOnSell t q p cp) = .ok s2 ∧
      runStmt s2 (insertCash env v "SELL") = .ok s3 ∧
      runStmt s3 (insertRealisedDelta (s.cur.trades.length + 1) t
        (q * (p - getAveragePurchasePrice s1.cur t)) dt) = .ok s' := by
  simp only [rtBody, if_neg hty] at h
  split at h
  · simp at h
  · rename_i s1 hs1
    split at h
    · simp at h
    · rename_i u hval
      split at h
      · simp at h
      · rename_i s2 hs2
        split at h
        · simp at h
        · rename_i s3 hs3
          exact ⟨s1, s2, s3, hs1, by simpa using hval, hs2, hs3, h⟩

theorem rtBody_buy_ok {env : Env} {t : String} {q : ℚ} {dt : String}
    {p cp v : ℚ} {s s' : Session}
    (h : rtBody env t q "BUY" dt p cp v s = .ok s') :
    ∃ s1 s2,
      runStmt s (insertTrade t p q "BUY" (-v) dt) = .ok s1 ∧
      runStmt s1 (updateHoldingsOnBuy t q p cp) = .ok s2 ∧
      runStmt s2 (insertCash env (-v) "BUY") = .ok s' := by
  simp only [rtBody, if_pos rfl, if_true] at h
  rw [if_neg (by simp : ¬("BUY" : String) = "SELL")] at h
  split at h
  · simp at h
  · rename_i s1 hs1
    split at h
    · simp at h
    · rename_i s2 hs2
      split at h
      · simp at h
      · rename_i s3 hs3
        have hs : s3 = s' := by simpa using h
        exact ⟨s1, s2, hs1, hs2, hs ▸ hs3⟩

/-! ## A concrete scenario used by the witnesses

A deterministic oracle environment, a fresh session, a session after a
deposit of 10000, and a session additionally holding 10 shares of "T"
bought at a manual price of 100. -/

def wEnv : Env :=
  { known := fun _ => true
    price := fun _ => 100
    priceOn := fun _ _ => 100
    dateOk := fun _ => true
    today := "2025-01-01" }

def wS0 : Session := Session.open Ledger.empty

def wS1 : Session := (update_cash wEnv 10000 "DEP" wS0).2

def wSB : Session := (record_transaction wEnv "T" 10 "BUY" none (some 100) wS1).2

theorem wS1_run :
    update_cash wEnv 10000 "DEP" wS0 =
      (.returned true,
        ⟨Ledger.empty, ⟨[⟨10000, "DEP", "2025-01-01"⟩], [], [], []⟩, 1, none⟩) := by
  have r1 : round2 (10000 : ℚ) = 10000 := by norm_num [round2, roundHalfAway]
  simp [update_cash, wS0, wEnv, Session.open, Ledger.empty, cash_balance, runStmt,
    insertCash, r1]

theorem wSB_run :
    record_transaction wEnv "T" 10 "BUY" none (some 100) wS1 =
      (.returned true,
        ⟨Ledger.empty,
          ⟨[⟨10000, "DEP", "2025-01-01"⟩, ⟨-1000, "BUY", "2025-01-01"⟩],
           [⟨1, "T", 100, 10, "BUY", -1000, "2025-01-01"⟩],
           [("T", ⟨10, 100, 100, 1000, 1000⟩)], []⟩, 4, none⟩) := by
  have hS1 : wS1 = ⟨Ledger.empty, ⟨[⟨10000, "DEP", "2025-01-01"⟩], [], [], []⟩, 1, none⟩ :=
    congrArg Prod.snd wS1_run
  have r100 : round2 (100 : ℚ) = 100 := by norm_num [round2, roundHalfAway]
  have r10 : round2 (10 : ℚ) = 10 := by norm_num [round2, roundHalfAway]
  have r1000 : round2 (1000 : ℚ) = 1000 := by norm_num [round2, roundHalfAway]
  have rm1000 : round2 (-1000 : ℚ) = -1000 := by norm_num [round2, roundHalfAway]
  rw [hS1]
  simp [record_transaction, rtBody, wEnv, cash_balance, effDate, effPrice, runStmt,
    insertTrade, updateHoldingsOnBuy, insertCash, findHolding, holdingChecks,
    Ledger.empty, r100, r10, r1000, rm1000]
  norm_num [round2, roundHalfAway]
  simp

/-! ## The claims -/

/-- C3: For every SELL of quantity q from a holding with previous quantity
q0 and cost_basis c0, the holding's cost_basis afterwards equals
(c0 / q0) * (q0 - q) rounded to 2 decimal places, and the holding's
average_cost is left unchanged by the sale (held constant across a partial
sale rather than recomputed). -/
theorem C3_sell_rescales_cost_basis {env : Env} {t : String} {q : ℚ}
    {d : Option String} {mp : Option ℚ} {s s' : Session} {h0 : Holding}
    (hf : findHolding s.cur.holdings t = some h0)
    (h : record_transaction env t q "SELL" d mp s = (.returned true, s')) :
    (findHolding s'.cur.holdings t).map Holding.cost_basis
        = some (round2 ((h0.cost_basis / h0.quantity) * (h0.quantity - q))) ∧
    (findHolding s'.cur.holdings t).map Holding.average_purchase_price
        = some h0.average_purchase_price := by
  have hb := record_transaction_ok_inv h
  obtain ⟨s1, s2, s3, hs1, hval, hs2, hs3, hs4⟩ := rtBody_sell_ok (by simp) hb
  obtain ⟨l1, hl1, hseq1⟩ := runStmt_ok hs1
  obtain ⟨_, _, _, hl1e⟩ := insertTrade_ok hl1
  have hh1 : s1.cur.holdings = s.cur.holdings := by rw [hseq1, hl1e]
  obtain ⟨l2, hl2, hseq2⟩ := runStmt_ok hs2
  have hf1 : findHolding s1.cur.holdings t = some h0 := by rw [hh1]; exact hf
  have hl2e := updateHoldingsOnSell_ok hf1 hl2
  have hh2 : s2.cur.holdings
      = setHolding s1.cur.holdings t (sellUpdatedHolding h0 q (env.price t)) := by
    rw [hseq2, hl2e]
  obtain ⟨l3, hl3, hseq3⟩ := runStmt_ok hs3
  have hl3e := insertCash_ok hl3
  have hh3 : s3.cur.holdings = s2.cur.holdings := by rw [hseq3, hl3e]
  obtain ⟨l4, hl4, hseq4⟩ := runStmt_ok hs4
  have hl4e := insertRealisedDelta_ok hl4
  have hh4 : s'.cur.holdings = s3.cur.holdings := by rw [hseq4, hl4e]
  have hfind : findHolding s'.cur.holdings t
      = some (sellUpdatedHolding h0 q (env.price t)) := by
    rw [hh4, hh3, hh2, hh1]
    exact findHolding_setHolding_self hf _
  rw [hfind]
  exact ⟨by simp [sellUpdatedHolding], by simp [sellUpdatedHolding]⟩

/-- Witness for C3: selling 4 of the 10 shares of "T" (cost basis 1000,
average cost 100) leaves cost basis round2((1000/10)*(10-4)) = 600 and the
average purchase price unchanged at 100. -/
theorem C3_sell_rescales_cost_basis_witness :
    (findHolding (record_transaction wEnv "T" 4 "SELL" none (some 100) wSB).2.cur.holdings
      "T").map Holding.cost_basis = some 600 ∧
    (findHolding (record_transaction wEnv "T" 4 "SELL" none (some 100) wSB).2.cur.holdings
      "T").map Holding.average_purchase_price = some 100 := by
  have hSB : wSB =
      ⟨Ledger.empty,
        ⟨[⟨10000, "DEP", "2025-01-01"⟩, ⟨-1000, "BUY", "2025-01-01"⟩],
         [⟨1, "T", 100, 10, "BUY", -1000, "2025-01-01"⟩],
         [("T", ⟨10, 100, 100, 1000, 1000⟩)], []⟩, 4, none⟩ :=
    congrArg Prod.snd wSB_run
  have hf : findHolding wSB.cur.holdings "T" = some ⟨10, 100, 100, 1000, 1000⟩ := by
    rw [hSB]; simp [findHolding]
  have hrt1 : (record_transaction wEnv "T" 4 "SELL" none (some 100) wSB).1
      = .returned true := by
    rw [hSB]
    simp [record_transaction, rtBody, wEnv, cash_balance, effDate, effPrice, runStmt,
      insertTrade, updateHoldingsOnSell, sellUpdatedHolding, insertCash, validate_sale,
      getAveragePurchasePrice, insertRealisedDelta, findHolding, setHolding,
      holdingChecks, Ledger.empty]
    norm_num [round2, roundHalfAway, findHolding, setHolding, getAveragePurchasePrice,
      runStmt, insertCash, insertRealisedDelta, holdingChecks]
    simp
  have h : record_transaction wEnv "T" 4 "SELL" none (some 100) wSB
      = (.returned true, (record_transaction wEnv "T" 4 "SELL" none (some 100) wSB).2) := by
    rw [← hrt1]
  obtain ⟨h1, h2⟩ := C3_sell_rescales_cost_basis hf h
  refine ⟨?_, ?_⟩
  · rw [h1]
    norm_num [round2, roundHalfAway]
  · rw [h2]

/-- The session after the BUY of the witness scenario, explicitly. -/
theorem wSB_state : wSB =
    ⟨Ledger.empty,
      ⟨[⟨10000, "DEP", "2025-01-01"⟩, ⟨-1000, "BUY", "2025-01-01"⟩],
       [⟨1, "T", 100, 10, "BUY", -1000, "2025-01-01"⟩],
       [("T", ⟨10, 100, 100, 1000, 1000⟩)], []⟩, 4, none⟩ :=
  congrArg Prod.snd wSB_run

/-- C2: For every BUY of (quantity q, price p) on a ticker with an existing
holding of (quantity q0, average_cost a0), the holding's average_cost
afterwards equals the weighted average (q0*a0 + q*p)/(q0 + q) rounded to 2
decimal places (stated for q and p representable at the store's 2-decimal
precision, as all stored quantities and prices are). -/
theorem C2_buy_weighted_average {env : Env} {t : String} {q p : ℚ}
    {d : Option String} {s s' : Session} {h0 : Holding}
    (hf : findHolding s.cur.holdings t = some h0)
    (hq2 : round2 q = q) (hp2 : round2 p = p)
    (h : record_transaction env t q "BUY" d (some p) s = (.returned true, s')) :
    (findHolding s'.cur.holdings t).map Holding.average_purchase_price
      = some (round2 ((h0.quantity * h0.average_purchase_price + q * p) /
          (h0.quantity + q))) := by
  have hb := record_transaction_ok_inv h
  simp only [effPrice] at hb
  obtain ⟨s1, s2, hs1, hs2, hs3⟩ := rtBody_buy_ok hb
  obtain ⟨l1, hl1, hseq1⟩ := runStmt_ok hs1
  obtain ⟨_, _, _, hl1e⟩ := insertTrade_ok hl1
  have hh1 : s1.cur.holdings = s.cur.holdings := by rw [hseq1, hl1e]
  obtain ⟨l2, hl2, hseq2⟩ := runStmt_ok hs2
  have hf1 : findHolding s1.cur.holdings t = some h0 := by rw [hh1]; exact hf
  have hl2e := updateHoldingsOnBuy_ok_some hf1 hl2
  have hh2 : s2.cur.holdings
      = setHolding s1.cur.holdings t (buyUpdatedHolding h0 q p (env.price t)) := by
    rw [hseq2, hl2e]
  obtain ⟨l3, hl3, hseq3⟩ := runStmt_ok hs3
  have hl3e := insertCash_ok hl3
  have hh3 : s'.cur.holdings = s2.cur.holdings := by rw [hseq3, hl3e]
  have hfind : findHolding s'.cur.holdings t
      = some (buyUpdatedHolding h0 q p (env.price t)) := by
    rw [hh3, hh2, hh1]
    exact findHolding_setHolding_self hf _
  rw [hfind]
  simp [buyUpdatedHolding, hq2, hp2]

/-- Witness for C2: a second BUY of 10 shares at manual price 200 on top of
the 10 shares held at average cost 100 yields average cost exactly 150
(the spec's concrete example). -/
theorem C2_buy_weighted_average_witness :
    (findHolding (record_transaction wEnv "T" 10 "BUY" none (some 200) wSB).2.cur.holdings
      "T").map Holding.average_purchase_price = some 150 := by
  have hf : findHolding wSB.cur.holdings "T" = some ⟨10, 100, 100, 1000, 1000⟩ := by
    rw [wSB_state]; simp [findHolding]
  have hq2 : round2 (10 : ℚ) = 10 := by norm_num [round2, roundHalfAway]
  have hp2 : round2 (200 : ℚ) = 200 := by norm_num [round2, roundHalfAway]
  have hrt1 : (record_transaction wEnv "T" 10 "BUY" none (some 200) wSB).1
      = .returned true := by
    rw [wSB_state]
    simp [record_transaction, rtBody, wEnv, cash_balance, effDate, effPrice, runStmt,
      insertTrade, updateHoldingsOnBuy, buyUpdatedHolding, insertCash, findHolding,
      setHolding, holdingChecks, Ledger.empty]
    norm_num [round2, roundHalfAway, findHolding, setHolding, runStmt, insertCash,
      holdingChecks]
    simp
  have h : record_transaction wEnv "T" 10 "BUY" none (some 200) wSB
      = (.returned true, (record_transaction wEnv "T" 10 "BUY" none (some 200) wSB).2) := by
    rw [← hrt1]
  have h1 := C2_buy_weighted_average hf hq2 hp2 h
  rw [h1]
  norm_num [round2, roundHalfAway]

/-- The session after the deposit of the witness scenario, explicitly. -/
theorem wS1_state : wS1 =
    ⟨Ledger.empty, ⟨[⟨10000, "DEP", "2025-01-01"⟩], [], [], []⟩, 1, none⟩ :=
  congrArg Prod.snd wS1_run

/-- C4 (amended): For every successful SELL of quantity q at effective
price p, exactly one RealisedGainEntry is appended, tied to the new
TradeEntry's id, with delta = q * (p - a) *rounded to 2 decimal places on
storage*, where a is the holding's average_cost captured before the sale
mutates the holding. -/
theorem C4_realised_gain_recorded {env : Env} {t : String} {q : ℚ}
    {d : Option String} {mp : Option ℚ} {s s' : Session} {h0 : Holding}
    (hf : findHolding s.cur.holdings t = some h0)
    (h : record_transaction env t q "SELL" d mp s = (.returned true, s')) :
    s'.cur.realised = s.cur.realised ++
      [⟨s.cur.trades.length + 1, t,
        round2 (q * (effPrice env t d mp - h0.average_purchase_price)), effDate env d⟩] ∧
    s'.cur.trades = s.cur.trades ++
      [⟨s.cur.trades.length + 1, t, round2 (effPrice env t d mp), round2 q, "SELL",
        round2 (effPrice env t d mp * q), effDate env d⟩] := by
  have hb := record_transaction_ok_inv h
  obtain ⟨s1, s2, s3, hs1, hval, hs2, hs3, hs4⟩ := rtBody_sell_ok (by simp) hb
  obtain ⟨l1, hl1, hseq1⟩ := runStmt_ok hs1
  obtain ⟨_, _, _, hl1e⟩ := insertTrade_ok hl1
  rw [if_pos rfl] at hl1e
  have hh1 : s1.cur.holdings = s.cur.holdings := by rw [hseq1, hl1e]
  have ht1 : s1.cur.trades = s.cur.trades ++
      [⟨s.cur.trades.length + 1, t, round2 (effPrice env t d mp), round2 q, "SELL",
        round2 (effPrice env t d mp * q), effDate env d⟩] := by
    rw [hseq1, hl1e]
  have hr1 : s1.cur.realised = s.cur.realised := by rw [hseq1, hl1e]
  have hf1 : findHolding s1.cur.holdings t = some h0 := by rw [hh1]; exact hf
  have havg : getAveragePurchasePrice s1.cur t = h0.average_purchase_price := by
    unfold getAveragePurchasePrice
    rw [hf1]
  obtain ⟨l2, hl2, hseq2⟩ := runStmt_ok hs2
  have hl2e := updateHoldingsOnSell_ok hf1 hl2
  have ht2 : s2.cur.trades = s1.cur.trades := by rw [hseq2, hl2e]
  have hr2 : s2.cur.realised = s1.cur.realised := by rw [hseq2, hl2e]
  obtain ⟨l3, hl3, hseq3⟩ := runStmt_ok hs3
  have hl3e := insertCash_ok hl3
  have ht3 : s3.cur.trades = s2.cur.trades := by rw [hseq3, hl3e]
  have hr3 : s3.cur.realised = s2.cur.realised := by rw [hseq3, hl3e]
  obtain ⟨l4, hl4, hseq4⟩ := runStmt_ok hs4
  have hl4e := insertRealisedDelta_ok hl4
  have ht4 : s'.cur.trades = s3.cur.trades := by rw [hseq4, hl4e]
  have hr4 : s'.cur.realised = s3.cur.realised ++
      [⟨s.cur.trades.length + 1, t,
        round2 (q * (effPrice env t d mp - getAveragePurchasePrice s1.cur t)),
        effDate env d⟩] := by
    rw [hseq4, hl4e]
  constructor
  · rw [hr4, hr3, hr2, hr1, havg]
  · rw [ht4, ht3, ht2, ht1]

/-- Counterexample for C4 as frozen: after BUY(1 @ 100) then
SELL(0.33 @ 100.01), the stored realised delta is 0.00, while
q*(p-a) = 0.33*(100.01-100) = 0.0033 is nonzero: the stored delta is the
2-decimal rounding of q*(p-a), not q*(p-a) itself. -/
theorem C4_realised_gain_counterexample :
    ((record_transaction wEnv "T" (33/100) "SELL" none (some (10001/100))
        (record_transaction wEnv "T" 1 "BUY" none (some 100) wS1).2).2.cur.realised).map
      RealisedTx.delta = [0] ∧
    (33/100 : ℚ) * (10001/100 - 100) ≠ 0 := by
  have hbuy : record_transaction wEnv "T" 1 "BUY" none (some 100) wS1 =
      (.returned true,
        ⟨Ledger.empty,
          ⟨[⟨10000, "DEP", "2025-01-01"⟩, ⟨-100, "BUY", "2025-01-01"⟩],
           [⟨1, "T", 100, 1, "BUY", -100, "2025-01-01"⟩],
           [("T", ⟨1, 100, 100, 100, 100⟩)], []⟩, 4, none⟩) := by
    rw [wS1_state]
    simp [record_transaction, rtBody, wEnv, cash_balance, effDate, effPrice, runStmt,
      insertTrade, updateHoldingsOnBuy, insertCash, findHolding, holdingChecks,
      Ledger.empty]
    norm_num [round2, roundHalfAway, findHolding, setHolding, runStmt, insertCash,
      holdingChecks]
    simp
  rw [hbuy]
  constructor
  · simp [record_transaction, rtBody, wEnv, cash_balance, effDate, effPrice, runStmt,
      insertTrade, updateHoldingsOnSell, sellUpdatedHolding, insertCash, validate_sale,
      getAveragePurchasePrice, insertRealisedDelta, findHolding, setHolding,
      holdingChecks, Ledger.empty]
    norm_num [round2, roundHalfAway, findHolding, setHolding, getAveragePurchasePrice,
      runStmt, insertCash, insertRealisedDelta, holdingChecks]
    simp
  · norm_num

/-- Witness for C4 (amended): BUY(10 @ 100) then SELL(10 @ 150) records
exactly one RealisedGainEntry, tied to the new trade's id 2, with delta
exactly 500 (the spec's concrete example). -/
theorem C4_realised_gain_recorded_witness :
    (record_transaction wEnv "T" 10 "SELL" none (some 150) wSB).2.cur.realised
      = [⟨2, "T", 500, "2025-01-01"⟩] ∧
    (record_transaction wEnv "T" 10 "SELL" none (some 150) wSB).2.cur.trades
      = [⟨1, "T", 100, 10, "BUY", -1000, "2025-01-01"⟩,
         ⟨2, "T", 150, 10, "SELL", 1500, "2025-01-01"⟩] := by
  have hf : findHolding wSB.cur.holdings "T" = some ⟨10, 100, 100, 1000, 1000⟩ := by
    rw [wSB_state]; simp [findHolding]
  have hrt1 : (record_transaction wEnv "T" 10 "SELL" none (some 150) wSB).1
      = .returned true := by
    rw [wSB_state]
    simp [record_transaction, rtBody, wEnv, cash_balance, effDate, effPrice, runStmt,
      insertTrade, updateHoldingsOnSell, sellUpdatedHolding, insertCash, validate_sale,
      getAveragePurchasePrice, insertRealisedDelta, findHolding, setHolding,
      holdingChecks, Ledger.empty]
    norm_num [round2, roundHalfAway, findHolding, setHolding, getAveragePurchasePrice,
      runStmt, insertCash, insertRealisedDelta, holdingChecks]
    simp
  have h : record_transaction wEnv "T" 10 "SELL" none (some 150) wSB
      = (.returned true, (record_transaction wEnv "T" 10 "SELL" none (some 150) wSB).2) := by
    rw [← hrt1]
  obtain ⟨h1, h2⟩ := C4_realised_gain_recorded hf h
  constructor
  · rw [h1, wSB_state]
    norm_num [round2, roundHalfAway, effPrice, effDate, wEnv]
  · rw [h2, wSB_state]
    norm_num [round2, roundHalfAway, effPrice, effDate, wEnv]

/-- C9 (amended): For every quantity q exactly representable at the store's
2-decimal precision (round2 q = q), a BUY round-trips the quantity exactly:
the new TradeEntry's quantity is q, a fresh holding's quantity is q, and an
existing 2-decimal holding's quantity increases by exactly q. -/
theorem C9_quantity_roundtrip {env : Env} {t : String} {q : ℚ}
    {d : Option String} {mp : Option ℚ} {s s' : Session}
    (hq2 : round2 q = q)
    (h : record_transaction env t q "BUY" d mp s = (.returned true, s')) :
    (s'.cur.trades.map TradeTx.quantity).getLast? = some q ∧
    (findHolding s.cur.holdings t = none →
      (findHolding s'.cur.holdings t).map Holding.quantity = some q) ∧
    (∀ h0, findHolding s.cur.holdings t = some h0 → round2 h0.quantity = h0.quantity →
      (findHolding s'.cur.holdings t).map Holding.quantity = some (h0.quantity + q)) := by
  have hb := record_transaction_ok_inv h
  obtain ⟨s1, s2, hs1, hs2, hs3⟩ := rtBody_buy_ok hb
  obtain ⟨l1, hl1, hseq1⟩ := runStmt_ok hs1
  obtain ⟨_, _, _, hl1e⟩ := insertTrade_ok hl1
  have hh1 : s1.cur.holdings = s.cur.holdings := by rw [hseq1, hl1e]
  have ht1 : s1.cur.trades = s.cur.trades ++
      [⟨s.cur.trades.length + 1, t, round2 (effPrice env t d mp), round2 q, "BUY",
        round2 (-(effPrice env t d mp * q)), effDate env d⟩] := by
    rw [hseq1, hl1e]
  obtain ⟨l2, hl2, hseq2⟩ := runStmt_ok hs2
  obtain ⟨l3, hl3, hseq3⟩ := runStmt_ok hs3
  have hl3e := insertCash_ok hl3
  have hh3 : s'.cur.holdings = s2.cur.holdings := by rw [hseq3, hl3e]
  have ht3 : s'.cur.trades = s2.cur.trades := by rw [hseq3, hl3e]
  refine ⟨?_, ?_, ?_⟩
  · have ht2 : s2.cur.trades = s1.cur.trades := by
      rcases hfind : findHolding s1.cur.holdings t with _ | h0
      · rw [hseq2, updateHoldingsOnBuy_ok_none hfind hl2]
      · rw [hseq2, updateHoldingsOnBuy_ok_some hfind hl2]
    rw [ht3, ht2, ht1, List.map_append]
    simp [hq2]
  · intro hnone
    have hn1 : findHolding s1.cur.holdings t = none := by rw [hh1]; exact hnone
    have hl2e := updateHoldingsOnBuy_ok_none hn1 hl2
    have : findHolding s'.cur.holdings t
        = some ⟨round2 q, round2 (effPrice env t d mp), round2 (env.price t),
            round2 (q * effPrice env t d mp), round2 (q * env.price t)⟩ := by
      rw [hh3, hseq2, hl2e]
      exact findHolding_append_none hn1 _
    rw [this]
    simp [hq2]
  · intro h0 hsome hq02
    have hs1f : findHolding s1.cur.holdings t = some h0 := by rw [hh1]; exact hsome
    have hl2e := updateHoldingsOnBuy_ok_some hs1f hl2
    have : findHolding s'.cur.holdings t
        = some (buyUpdatedHolding h0 q (effPrice env t d mp) (env.price t)) := by
      rw [hh3, hseq2, hl2e]
      exact findHolding_setHolding_self hs1f _
    rw [this]
    simp [buyUpdatedHolding, hq2, round2_fix_add hq02 hq2]

/-- Counterexample for C9 as frozen: a BUY of 0.125 shares stores holding
quantity 0.13 (the DECIMAL(15,2) column rounds half away from zero), so the
fractional quantity 1/8 does not round-trip. -/
theorem C9_quantity_roundtrip_counterexample :
    (findHolding (record_transaction wEnv "T" (1/8) "BUY" none (some 100)
        wS1).2.cur.holdings "T").map Holding.quantity = some (13/100) ∧
    (13/100 : ℚ) ≠ 1/8 := by
  constructor
  · rw [wS1_state]
    simp [record_transaction, rtBody, wEnv, cash_balance, effDate, effPrice, runStmt,
      insertTrade, updateHoldingsOnBuy, insertCash, findHolding, holdingChecks,
      Ledger.empty]
    norm_num [round2, roundHalfAway, findHolding, setHolding, runStmt, insertCash,
      holdingChecks]
  · norm_num

/-- Witness for C9 (amended): a BUY of 0.5 shares at manual price 100 on a
fresh ticker stores trade quantity 0.5 and holding quantity exactly 0.5. -/
theorem C9_quantity_roundtrip_witness :
    ((record_transaction wEnv "T" (1/2) "BUY" none (some 100) wS1).2.cur.trades.map
      TradeTx.quantity).getLast? = some (1/2) ∧
    (findHolding (record_transaction wEnv "T" (1/2) "BUY" none (some 100)
        wS1).2.cur.holdings "T").map Holding.quantity = some (1/2) := by
  have hq2 : round2 ((1:ℚ)/2) = 1/2 := by norm_num [round2, roundHalfAway]
  have hrt1 : (record_transaction wEnv "T" (1/2) "BUY" none (some 100) wS1).1
      = .returned true := by
    rw [wS1_state]
    simp [record_transaction, rtBody, wEnv, cash_balance, effDate, effPrice, runStmt,
      insertTrade, updateHoldingsOnBuy, insertCash, findHolding, holdingChecks,
      Ledger.empty]
    norm_num [round2, roundHalfAway, findHolding, setHolding, runStmt, insertCash,
      holdingChecks]
    simp
  have h : record_transaction wEnv "T" (1/2) "BUY" none (some 100) wS1
      = (.returned true, (record_transaction wEnv "T" (1/2) "BUY" none (some 100) wS1).2) := by
    rw [← hrt1]
  obtain ⟨h1, h2, _⟩ := C9_quantity_roundtrip hq2 h
  have hnone : findHolding wS1.cur.holdings "T" = none := by
    rw [wS1_state]; simp [findHolding]
  exact ⟨h1, h2 hnone⟩

/-- If every pre-`try` validation passes but the `try` block of
`record_transaction` raises (a `ValueError` of the engine's own or a
database error), the `except Exception` handler rolls the session back to
its last commit and the call returns `False`. -/
theorem record_transaction_catch {env : Env} {t : String} {q : ℚ} {ty : String}
    {d : Option String} {mp : Option ℚ} {s : Session} {e : Exn}
    (hq : 0 < q) (hmp : ∀ p ∈ mp, 0 < p)
    (hdate : ∀ dd ∈ d, env.dateOk dd = true)
    (hkn : env.known t = true)
    (hnb : ¬(ty = "BUY" ∧ cash_balance s.cur < effPrice env t d mp * q))
    (hbody : rtBody env t q ty (effDate env d) (effPrice env t d mp) (env.price t)
      (effPrice env t d mp * q) s = .error e) :
    record_transaction env t q ty d mp s = (.returned false, s.rollback) := by
  unfold record_transaction
  rw [if_neg (not_le.mpr hq)]
  rw [if_neg (by cases mp with
    | none => simp
    | some p => simp [(hmp p rfl).not_le])]
  rw [if_neg (by cases d with
    | none => simp
    | some dd => simp [hdate dd rfl])]
  rw [if_neg (by simp [hkn])]
  rw [if_neg hnb]
  rw [hbody]

/-- C1 (amended): For every SELL via record_transaction where the ticker
has no holding row or the requested quantity exceeds the held quantity
(and the call reaches the `try` block with the trade insert succeeding),
the `ValueError` of `_validate_sale` is raised *inside* the `try` block —
after the TradeEntry insert — is caught by `except Exception`, the
session's uncommitted work is rolled back to its last commit, and the call
returns `False`; no typed error reaches the caller. -/
theorem C1_sell_insufficient_returns_false {env : Env} {t : String} {q : ℚ}
    {d : Option String} {mp : Option ℚ} {s : Session}
    (hq : 0 < q)
    (hmp : ∀ p ∈ mp, 0 < p)
    (hdate : ∀ dd ∈ d, env.dateOk dd = true)
    (hkn : env.known t = true)
    (hqr : 0 < round2 q)
    (hpr : 0 < round2 (effPrice env t d mp))
    (hfail : s.failAt = none)
    (hshort : ∀ h0 ∈ findHolding s.cur.holdings t, h0.quantity < q) :
    record_transaction env t q "SELL" d mp s = (.returned false, s.rollback) ∧
    rtBody env t q "SELL" (effDate env d) (effPrice env t d mp) (env.price t)
      (effPrice env t d mp * q) s = .error (.valueError .insufficientShares) := by
  have hbody : rtBody env t q "SELL" (effDate env d) (effPrice env t d mp) (env.price t)
      (effPrice env t d mp * q) s = .error (.valueError .insufficientShares) := by
    unfold rtBody
    split
    · rename_i e heq
      unfold runStmt at heq
      rw [hfail] at heq
      simp only [reduceCtorEq, if_false] at heq
      unfold insertTrade at heq
      rw [if_pos ⟨hpr, hqr, Or.inr rfl⟩] at heq
      exact absurd heq (by simp)
    · rename_i s1 heq
      rw [if_neg (by simp : ¬("SELL" : String) = "BUY")]
      obtain ⟨l1, hl1, hseq1⟩ := runStmt_ok heq
      obtain ⟨_, _, _, hl1e⟩ := insertTrade_ok hl1
      have hh1 : s1.cur.holdings = s.cur.holdings := by rw [hseq1, hl1e]
      have hvs : validate_sale s1.cur t q = .error (.valueError .insufficientShares) := by
        unfold validate_sale
        rw [hh1]
        rcases hfh : findHolding s.cur.holdings t with _ | h0
        · simp only [hfh]
        · simp only [hfh]
          rw [if_pos (hshort h0 (by simp [hfh]))]
      rw [hvs]
  exact ⟨record_transaction_catch hq hmp hdate hkn (by simp) hbody, hbody⟩

/-- Counterexample for C1 as frozen: a SELL of 5 shares of an unheld ticker
on a fresh session does not raise InsufficientShares to the caller — the
call returns the boolean False (the typed error is swallowed by the
catch-all `except Exception` after a TradeEntry insert already ran and was
rolled back). -/
theorem C1_sell_insufficient_counterexample :
    record_transaction wEnv "T" 5 "SELL" none (some 100) wS0
      = (.returned false, wS0) ∧
    (record_transaction wEnv "T" 5 "SELL" none (some 100) wS0).1
      ≠ Outcome.raised PortErr.insufficientShares := by
  have h1 : record_transaction wEnv "T" 5 "SELL" none (some 100) wS0
      = (.returned false, wS0) := by
    simp [record_transaction, rtBody, wEnv, wS0, Session.open, Session.rollback,
      cash_balance, effDate, effPrice, runStmt, insertTrade, validate_sale,
      findHolding, Ledger.empty]
    norm_num [round2, roundHalfAway, findHolding, validate_sale, runStmt, insertCash,
      updateHoldingsOnSell, Session.rollback]
  exact ⟨h1, by rw [h1]; simp⟩

/-- Witness for C1 (amended): the same SELL on a session holding only an
uncommitted deposit of 10000 returns False and rolls the session back to
its last commit — the empty store, wiping the deposit as well. -/
theorem C1_sell_insufficient_returns_false_witness :
    record_transaction wEnv "T" 5 "SELL" none (some 100) wS1
      = (.returned false, wS1.rollback) ∧
    rtBody wEnv "T" 5 "SELL" (effDate wEnv none) (effPrice wEnv "T" none (some 100))
      (wEnv.price "T") (effPrice wEnv "T" none (some 100) * 5) wS1
      = .error (.valueError .insufficientShares) :=
  C1_sell_insufficient_returns_false
    (by norm_num) (by intro p hp; cases hp; norm_num) (by intro dd hdd; cases hdd) rfl
    (by norm_num [round2, roundHalfAway])
    (by norm_num [round2, roundHalfAway, effPrice, effDate, wEnv])
    (by rw [wS1_state]) (by rw [wS1_state]; simp [findHolding])

/-- C7: For every BUY via record_transaction where the trade value
(price x quantity) exceeds the current cash balance, the call fails with
InsufficientFunds raised before the `try` block, and the session state is
untouched (no TradeEntry, no Holding change, no CashEntry). -/
theorem C7_buy_insufficient_funds {env : Env} {t : String} {q : ℚ}
    {d : Option String} {mp : Option ℚ} {s : Session}
    (hq : 0 < q) (hmp : ∀ p ∈ mp, 0 < p)
    (hdate : ∀ dd ∈ d, env.dateOk dd = true)
    (hkn : env.known t = true)
    (hval : cash_balance s.cur < effPrice env t d mp * q) :
    record_transaction env t q "BUY" d mp s = (.raised .insufficientFunds, s) := by
  unfold record_transaction
  rw [if_neg (not_le.mpr hq)]
  rw [if_neg (by cases mp with
    | none => simp
    | some p => simp [(hmp p rfl).not_le])]
  rw [if_neg (by cases d with
    | none => simp
    | some dd => simp [hdate dd rfl])]
  rw [if_neg (by simp [hkn])]
  rw [if_pos ⟨rfl, hval⟩]

/-- Witness for C7: buying 200 shares at 100 with a balance of 10000
raises InsufficientFunds and leaves the session exactly as it was. -/
theorem C7_buy_insufficient_funds_witness :
    record_transaction wEnv "T" 200 "BUY" none (some 100) wS1
      = (.raised .insufficientFunds, wS1) :=
  C7_buy_insufficient_funds (by norm_num)
    (by intro p hp; cases hp; norm_num) (by intro dd hdd; cases hdd) rfl
    (by rw [wS1_state]; norm_num [cash_balance, effPrice, effDate, wEnv])

/-- C10: record_transaction performs no validation of its kind argument:
for a kind outside BUY and SELL (such as HOLD) the call reaches the
TradeEntry insert, which fails only on the store's
CHECK(type IN ('BUY','SELL')); the failure is reported as the boolean
False (with rollback), not as a raised InvalidArgument. -/
theorem C10_kind_not_validated {env : Env} {t : String} {q : ℚ} {ty : String}
    {d : Option String} {mp : Option ℚ} {s : Session}
    (hB : ty ≠ "BUY") (hS : ty ≠ "SELL")
    (hq : 0 < q) (hmp : ∀ p ∈ mp, 0 < p)
    (hdate : ∀ dd ∈ d, env.dateOk dd = true)
    (hkn : env.known t = true) :
    record_transaction env t q ty d mp s = (.returned false, s.rollback) ∧
    insertTrade t (effPrice env t d mp) q ty (-(effPrice env t d mp * q))
      (effDate env d) s.cur = .error () := by
  have hins : insertTrade t (effPrice env t d mp) q ty (-(effPrice env t d mp * q))
      (effDate env d) s.cur = .error () := by
    unfold insertTrade
    rw [if_neg (by simp [hB, hS])]
  have hrs : runStmt s (insertTrade t (effPrice env t d mp) q ty
      (-(effPrice env t d mp * q)) (effDate env d)) = .error .dbError := by
    unfold runStmt
    split_ifs
    · rfl
    · rw [hins]
  have hbody : rtBody env t q ty (effDate env d) (effPrice env t d mp) (env.price t)
      (effPrice env t d mp * q) s = .error .dbError := by
    unfold rtBody
    rw [if_neg hS, hrs]
  exact ⟨record_transaction_catch hq hmp hdate hkn (by simp [hB]) hbody, hins⟩

/-- Witness for C10: record_transaction with kind HOLD returns False
(after rollback) rather than raising InvalidArgument, and the TradeEntry
insert is what rejects it. -/
theorem C10_kind_not_validated_witness :
    record_transaction wEnv "T" 5 "HOLD" none (some 100) wS1
      = (.returned false, wS1.rollback) ∧
    insertTrade "T" (effPrice wEnv "T" none (some 100)) 5 "HOLD"
      (-(effPrice wEnv "T" none (some 100) * 5))
      (effDate wEnv none) wS1.cur = .error () :=
  C10_kind_not_validated (by simp) (by simp) (by norm_num)
    (by intro p hp; cases hp; norm_num) (by intro dd hdd; cases hdd) rfl

/-- C6: update_cash fails with InvalidArgument if amount <= 0 or the kind
is outside DEP/WIT, fails with InsufficientFunds if a WIT exceeds the
current balance (leaving the session untouched), and on success inserts
exactly one signed CashEntry: balance after a valid DEP is before + amount
and after a valid WIT is before - amount (amounts at the store's 2-decimal
precision). -/
theorem C6_update_cash_contract :
    (∀ (env : Env) (a : ℚ) (ty : String) (s : Session), a ≤ 0 →
      update_cash env a ty s = (.raised .invalidArgument, s)) ∧
    (∀ (env : Env) (a : ℚ) (ty : String) (s : Session), ty ≠ "DEP" → ty ≠ "WIT" →
      update_cash env a ty s = (.raised .invalidArgument, s)) ∧
    (∀ (env : Env) (a : ℚ) (s : Session), 0 < a → cash_balance s.cur < a →
      update_cash env a "WIT" s = (.raised .insufficientFunds, s)) ∧
    (∀ (env : Env) (a : ℚ) (s : Session), 0 < a → round2 a = a → s.failAt = none →
      update_cash env a "DEP" s = (.returned true,
        ⟨s.base, { s.cur with cash := s.cur.cash ++ [⟨a, "DEP", env.today⟩] },
          s.stmtCount + 1, s.failAt⟩) ∧
      cash_balance (update_cash env a "DEP" s).2.cur = cash_balance s.cur + a) ∧
    (∀ (env : Env) (a : ℚ) (s : Session), 0 < a → round2 a = a → s.failAt = none →
      a ≤ cash_balance s.cur →
      update_cash env a "WIT" s = (.returned true,
        ⟨s.base, { s.cur with cash := s.cur.cash ++ [⟨-a, "WIT", env.today⟩] },
          s.stmtCount + 1, s.failAt⟩) ∧
      cash_balance (update_cash env a "WIT" s).2.cur = cash_balance s.cur - a) := by
  refine ⟨?_, ?_, ?_, ?_, ?_⟩
  · intro env a ty s ha
    unfold update_cash
    rw [if_pos ha]
  · intro env a ty s h1 h2
    unfold update_cash
    by_cases ha : a ≤ 0
    · rw [if_pos ha]
    · rw [if_neg ha, if_pos (by simp [h1, h2])]
  · intro env a s h0 hb
    unfold update_cash
    rw [if_neg (not_le.mpr h0), if_neg (by simp), if_pos ⟨rfl, hb⟩]
  · intro env a s h0 h2a hfail
    have hrs : runStmt s (insertCash env (if ("DEP" : String) = "DEP" then a else -a) "DEP")
        = .ok ⟨s.base, { s.cur with cash := s.cur.cash ++ [⟨a, "DEP", env.today⟩] },
            s.stmtCount + 1, s.failAt⟩ := by
      unfold runStmt insertCash
      rw [hfail]
      simp [h2a]
    have hmain : update_cash env a "DEP" s = (.returned true,
        ⟨s.base, { s.cur with cash := s.cur.cash ++ [⟨a, "DEP", env.today⟩] },
          s.stmtCount + 1, s.failAt⟩) := by
      unfold update_cash
      rw [if_neg (not_le.mpr h0), if_neg (by simp), if_neg (by simp), hrs]
    refine ⟨hmain, ?_⟩
    rw [hmain]
    simp [cash_balance]
  · intro env a s h0 h2a hfail hle
    have hrs : runStmt s (insertCash env (if ("WIT" : String) = "DEP" then a else -a) "WIT")
        = .ok ⟨s.base, { s.cur with cash := s.cur.cash ++ [⟨-a, "WIT", env.today⟩] },
            s.stmtCount + 1, s.failAt⟩ := by
      unfold runStmt insertCash
      rw [hfail]
      simp [round2_neg, h2a]
    have hmain : update_cash env a "WIT" s = (.returned true,
        ⟨s.base, { s.cur with cash := s.cur.cash ++ [⟨-a, "WIT", env.today⟩] },
          s.stmtCount + 1, s.failAt⟩) := by
      unfold update_cash
      rw [if_neg (not_le.mpr h0), if_neg (by simp),
        if_neg (by simp [not_lt.mpr hle]), hrs]
    refine ⟨hmain, ?_⟩
    rw [hmain]
    simp [cash_balance]
    ring

/-- Witness for C6: on concrete sessions, a zero deposit and an unknown
kind raise InvalidArgument, an excessive withdrawal raises
InsufficientFunds leaving the session untouched, a deposit of 500 moves
the balance from 10000 to 10500, and a withdrawal of 500 moves it to
9500. -/
theorem C6_update_cash_contract_witness :
    update_cash wEnv 0 "DEP" wS0 = (.raised .invalidArgument, wS0) ∧
    update_cash wEnv 500 "FOO" wS0 = (.raised .invalidArgument, wS0) ∧
    update_cash wEnv 20000 "WIT" wS1 = (.raised .insufficientFunds, wS1) ∧
    cash_balance (update_cash wEnv 500 "DEP" wS1).2.cur = 10500 ∧
    cash_balance (update_cash wEnv 500 "WIT" wS1).2.cur = 9500 := by
  have hbal : cash_balance wS1.cur = 10000 := by
    rw [wS1_state]; norm_num [cash_balance]
  refine ⟨C6_update_cash_contract.1 wEnv 0 "DEP" wS0 le_rfl,
    C6_update_cash_contract.2.1 wEnv 500 "FOO" wS0 (by simp) (by simp),
    C6_update_cash_contract.2.2.1 wEnv 20000 wS1 (by norm_num) (by rw [hbal]; norm_num),
    ?_, ?_⟩
  · rw [(C6_update_cash_contract.2.2.2.1 wEnv 500 wS1 (by norm_num)
      (by norm_num [round2, roundHalfAway]) (by rw [wS1_state])).2, hbal]
    norm_num
  · rw [(C6_update_cash_contract.2.2.2.2 wEnv 500 wS1 (by norm_num)
      (by norm_num [round2, roundHalfAway]) (by rw [wS1_state])
      (by rw [hbal]; norm_num)).2, hbal]
    norm_num

/-- C5 (amended): When a persistence-layer failure occurs during a
mutating call (update_cash or record_transaction) after its validations
passed, `self._conn.rollback()` discards ALL uncommitted statements of the
session — the ledger is restored to its state as of the session's last
commit, undoing the effects of earlier operations in the same session as
well — and the call reports failure by returning False rather than
raising. -/
theorem C5_rollback_on_persistence_failure :
    (∀ (env : Env) (a : ℚ) (ty : String) (s : Session) (e : Exn), 0 < a →
      (ty = "DEP" ∨ ty = "WIT") → ¬(ty = "WIT" ∧ cash_balance s.cur < a) →
      runStmt s (insertCash env (if ty = "DEP" then a else -a) ty) = .error e →
      update_cash env a ty s = (.returned false, s.rollback)) ∧
    (∀ (env : Env) (t : String) (q : ℚ) (ty : String) (d : Option String)
        (mp : Option ℚ) (s : Session) (e : Exn), 0 < q → (∀ p ∈ mp, 0 < p) →
      (∀ dd ∈ d, env.dateOk dd = true) → env.known t = true →
      ¬(ty = "BUY" ∧ cash_balance s.cur < effPrice env t d mp * q) →
      rtBody env t q ty (effDate env d) (effPrice env t d mp) (env.price t)
        (effPrice env t d mp * q) s = .error e →
      record_transaction env t q ty d mp s = (.returned false, s.rollback)) := by
  constructor
  · intro env a ty s e h0 hty hnw hrs
    unfold update_cash
    rw [if_neg (not_le.mpr h0), if_neg (not_not_intro hty), if_neg hnw, hrs]
  · intro env t q ty d mp s e hq hmp hdate hkn hnb hbody
    exact record_transaction_catch hq hmp hdate hkn hnb hbody

/-- Counterexample for C5 as frozen: a session deposits 10000 (balance
10000), then a record_transaction call hits an injected persistence
failure at its first statement; the call returns False but the rollback
restores the state as of the session's last commit — the EMPTY store —
wiping the earlier deposit (final balance 0, not 10000). -/
theorem C5_rollback_counterexample :
    cash_balance (update_cash wEnv 10000 "DEP" wS0).2.cur = 10000 ∧
    (record_transaction wEnv "T" 1 "BUY" none (some 50)
        ⟨wS1.base, wS1.cur, wS1.stmtCount, some wS1.stmtCount⟩).1 = .returned false ∧
    cash_balance (record_transaction wEnv "T" 1 "BUY" none (some 50)
        ⟨wS1.base, wS1.cur, wS1.stmtCount, some wS1.stmtCount⟩).2.cur = 0 ∧
    (0 : ℚ) ≠ 10000 := by
  have hrun : record_transaction wEnv "T" 1 "BUY" none (some 50)
        ⟨wS1.base, wS1.cur, wS1.stmtCount, some wS1.stmtCount⟩
      = (.returned false, ⟨wS1.base, wS1.base, wS1.stmtCount, some wS1.stmtCount⟩) := by
    rw [wS1_state]
    simp [record_transaction, rtBody, wEnv, cash_balance, effDate, effPrice, runStmt,
      insertTrade, Session.rollback, Ledger.empty]
    norm_num [round2, roundHalfAway]
  refine ⟨?_, ?_, ?_, by norm_num⟩
  · rw [wS1_run]
    norm_num [cash_balance]
  · rw [hrun]
  · rw [hrun, wS1_state]
    norm_num [cash_balance, Ledger.empty]

/-- Witness for C5 (amended): a record_transaction on a session whose next
statement is set to fail returns False with the session rolled back to its
last commit. -/
theorem C5_rollback_on_persistence_failure_witness :
    record_transaction wEnv "T" 1 "BUY" none (some 50)
        ⟨wS1.base, wS1.cur, wS1.stmtCount, some wS1.stmtCount⟩
      = (.returned false,
          Session.rollback ⟨wS1.base, wS1.cur, wS1.stmtCount, some wS1.stmtCount⟩) := by
  refine C5_rollback_on_persistence_failure.2 wEnv "T" 1 "BUY" none (some 50)
    ⟨wS1.base, wS1.cur, wS1.stmtCount, some wS1.stmtCount⟩ .dbError (by norm_num)
    (by intro p hp; cases hp; norm_num) (by intro dd hdd; cases hdd) rfl
    ?_ ?_
  · rw [wS1_state]
    norm_num [cash_balance, effPrice, effDate, wEnv]
  · unfold rtBody
    have hfailstmt : runStmt ⟨wS1.base, wS1.cur, wS1.stmtCount, some wS1.stmtCount⟩
        (insertTrade "T" (effPrice wEnv "T" none (some 50)) 1 "BUY"
          (if ("BUY" : String) = "SELL" then effPrice wEnv "T" none (some 50) * 1
            else -(effPrice wEnv "T" none (some 50) * 1)) (effDate wEnv none))
        = .error .dbError := by
      unfold runStmt
      rw [if_pos rfl]
    rw [hfailstmt]

/-- All rows of a `holdings` table fragment have non-negative quantity. -/
def quantitiesNonneg (hs : List (String × Holding)) : Prop :=
  ∀ pr ∈ hs, 0 ≤ pr.2.quantity

theorem quantitiesNonneg_setHolding :
    ∀ (hs : List (String × Holding)) (t : String) (h : Holding),
      quantitiesNonneg hs → 0 ≤ h.quantity → quantitiesNonneg (setHolding hs t h)
  | [], t, h, _, _ => by intro x hx; simp [setHolding] at hx
  | (t', h') :: rest, t, h, H, hh => by
      intro x hx
      simp only [setHolding] at hx
      split_ifs at hx with ht
      · rcases List.mem_cons.mp hx with rfl | hx
        · exact hh
        · exact H _ (List.mem_cons_of_mem _ hx)
      · rcases List.mem_cons.mp hx with rfl | hx
        · exact H _ (by simp)
        · exact quantitiesNonneg_setHolding rest t h
            (fun y hy => H y (List.mem_cons_of_mem _ hy)) hh x hx

theorem quantitiesNonneg_append {hs : List (String × Holding)} {t : String} {h : Holding}
    (H : quantitiesNonneg hs) (hh : 0 ≤ h.quantity) :
    quantitiesNonneg (hs ++ [(t, h)]) := by
  intro x hx
  rcases List.mem_append.mp hx with hx | hx
  · exact H x hx
  · rcases List.mem_singleton.mp hx with rfl
    exact hh

theorem updateHoldingsOnSell_ok_checks {t : String} {q p cp : ℚ} {l l' : Ledger}
    {h0 : Holding} (hf : findHolding l.holdings t = some h0)
    (h : updateHoldingsOnSell t q p cp l = .ok l') :
    holdingChecks (sellUpdatedHolding h0 q cp) := by
  simp only [updateHoldingsOnSell, hf] at h
  split_ifs at h with hc
  exact hc

theorem updateHoldingsOnBuy_ok_checks_some {t : String} {q p cp : ℚ} {l l' : Ledger}
    {h0 : Holding} (hf : findHolding l.holdings t = some h0)
    (h : updateHoldingsOnBuy t q p cp l = .ok l') :
    holdingChecks (buyUpdatedHolding h0 q p cp) := by
  simp only [updateHoldingsOnBuy, hf] at h
  split_ifs at h with hc
  exact hc

theorem updateHoldingsOnBuy_ok_checks_none {t : String} {q p cp : ℚ} {l l' : Ledger}
    (hf : findHolding l.holdings t = none)
    (h : updateHoldingsOnBuy t q p cp l = .ok l') :
    holdingChecks ⟨round2 q, round2 p, round2 cp, round2 (q * p), round2 (q * cp)⟩ := by
  simp only [updateHoldingsOnBuy, hf] at h
  split_ifs at h with hc
  exact hc

/-- A successful `try` block of `record_transaction` preserves
non-negativity of all holding quantities: the only statements that touch
`holdings` enforce the table's `CHECK (quantity >= 0)`. -/
theorem rtBody_ok_quantitiesNonneg {env : Env} {t : String} {q : ℚ} {ty : String}
    {dt : String} {p cp v : ℚ} {s s' : Session}
    (h : rtBody env t q ty dt p cp v s = .ok s')
    (H : quantitiesNonneg s.cur.holdings) : quantitiesNonneg s'.cur.holdings := by
  by_cases hty : ty = "BUY"
  · subst hty
    obtain ⟨s1, s2, hs1, hs2, hs3⟩ := rtBody_buy_ok h
    obtain ⟨l1, hl1, hseq1⟩ := runStmt_ok hs1
    obtain ⟨_, _, _, hl1e⟩ := insertTrade_ok hl1
    have hh1 : s1.cur.holdings = s.cur.holdings := by rw [hseq1, hl1e]
    obtain ⟨l2, hl2, hseq2⟩ := runStmt_ok hs2
    have H2 : quantitiesNonneg s2.cur.holdings := by
      rcases hfind : findHolding s1.cur.holdings t with _ | h0
      · have hc := updateHoldingsOnBuy_ok_checks_none hfind hl2
        rw [hseq2, updateHoldingsOnBuy_ok_none hfind hl2]
        exact quantitiesNonneg_append (by rw [hh1]; exact H) hc.1
      · have hc := updateHoldingsOnBuy_ok_checks_some hfind hl2
        rw [hseq2, updateHoldingsOnBuy_ok_some hfind hl2]
        exact quantitiesNonneg_setHolding _ _ _ (by rw [hh1]; exact H) hc.1
    obtain ⟨l3, hl3, hseq3⟩ := runStmt_ok hs3
    have hh3 : s'.cur.holdings = s2.cur.holdings := by rw [hseq3, insertCash_ok hl3]
    rw [hh3]
    exact H2
  · obtain ⟨s1, s2, s3, hs1, hval, hs2, hs3, hs4⟩ := rtBody_sell_ok hty h
    obtain ⟨l1, hl1, hseq1⟩ := runStmt_ok hs1
    obtain ⟨_, _, _, hl1e⟩ := insertTrade_ok hl1
    have hh1 : s1.cur.holdings = s.cur.holdings := by rw [hseq1, hl1e]
    obtain ⟨h0, hfind, _⟩ := validate_sale_ok hval
    obtain ⟨l2, hl2, hseq2⟩ := runStmt_ok hs2
    have hc := updateHoldingsOnSell_ok_checks hfind hl2
    have H2 : quantitiesNonneg s2.cur.holdings := by
      rw [hseq2, updateHoldingsOnSell_ok hfind hl2]
      exact quantitiesNonneg_setHolding _ _ _ (by rw [hh1]; exact H) hc.1
    obtain ⟨l3, hl3, hseq3⟩ := runStmt_ok hs3
    have hh3 : s3.cur.holdings = s2.cur.holdings := by rw [hseq3, insertCash_ok hl3]
    obtain ⟨l4, hl4, hseq4⟩ := runStmt_ok hs4
    have hh4 : s'.cur.holdings = s3.cur.holdings := by
      rw [hseq4, insertRealisedDelta_ok hl4]
    rw [hh4, hh3]
    exact H2

/-- Any `record_transaction` call leaves the pending ledger as it was, or
rolled back to the last commit, or equal to a successful `try` block's
result. -/
theorem record_transaction_cur_cases {env : Env} {t : String} {q : ℚ} {ty : String}
    {d : Option String} {mp : Option ℚ} {s : Session} :
    (record_transaction env t q ty d mp s).2.cur = s.cur ∨
    (record_transaction env t q ty d mp s).2.cur = s.base ∨
    ∃ s', rtBody env t q ty (effDate env d) (effPrice env t d mp) (env.price t)
      (effPrice env t d mp * q) s = .ok s' ∧
      (record_transaction env t q ty d mp s).2 = s' := by
  simp only [record_transaction]
  split_ifs
  · left; rfl
  · left; rfl
  · left; rfl
  · left; rfl
  · left; rfl
  · rcases hb : rtBody env t q ty (effDate env d) (effPrice env t d mp) (env.price t)
        (effPrice env t d mp * q) s with e | s'
    · simp only [hb]
      right; left; rfl
    · simp only [hb]
      right; right
      exact ⟨s', rfl, rfl⟩

/-- Any `update_cash` call leaves the `holdings` table as it was, or as of
the last commit (it never writes `holdings`). -/
theorem update_cash_holdings_cases {env : Env} {a : ℚ} {ty : String} {s : Session} :
    (update_cash env a ty s).2.cur.holdings = s.cur.holdings ∨
    (update_cash env a ty s).2.cur.holdings = s.base.holdings := by
  simp only [update_cash]
  generalize (if ty = "DEP" then a else -a) = amt
  split_ifs <;> try (left; rfl)
  rcases hrs : runStmt s (insertCash env amt ty) with e | s'
  · simp only [hrs]
    right
    rfl
  · simp only [hrs]
    left
    obtain ⟨l, hl, hseq⟩ := runStmt_ok hrs
    rw [hseq, insertCash_ok hl]

/-- C8: Holding.quantity >= 0 is an invariant preserved by every operation
(record_transaction with any arguments and any outcome, and update_cash);
a SELL can only succeed when the requested quantity does not exceed the
held quantity; and a full sale leaves the row in place with quantity,
cost_basis and current_value exactly zero. -/
theorem C8_quantity_invariant :
    (∀ (env : Env) (t : String) (q : ℚ) (ty : String) (d : Option String)
        (mp : Option ℚ) (s : Session),
      quantitiesNonneg s.base.holdings → quantitiesNonneg s.cur.holdings →
      quantitiesNonneg (record_transaction env t q ty d mp s).2.cur.holdings) ∧
    (∀ (env : Env) (a : ℚ) (ty : String) (s : Session),
      quantitiesNonneg s.base.holdings → quantitiesNonneg s.cur.holdings →
      quantitiesNonneg (update_cash env a ty s).2.cur.holdings) ∧
    (∀ (env : Env) (t : String) (q : ℚ) (d : Option String) (mp : Option ℚ)
        (s s' : Session) (h0 : Holding),
      record_transaction env t q "SELL" d mp s = (.returned true, s') →
      findHolding s.cur.holdings t = some h0 → q ≤ h0.quantity) ∧
    (∀ (env : Env) (t : String) (q : ℚ) (d : Option String) (mp : Option ℚ)
        (s s' : Session) (h0 : Holding),
      record_transaction env t q "SELL" d mp s = (.returned true, s') →
      findHolding s.cur.holdings t = some h0 → q = h0.quantity →
      findHolding s'.cur.holdings t
        = some ⟨0, h0.average_purchase_price, round2 (env.price t), 0, 0⟩) := by
  refine ⟨?_, ?_, ?_, ?_⟩
  · intro env t q ty d mp s Hb Hc
    rcases @record_transaction_cur_cases env t q ty d mp s
        with hcase | hcase | ⟨s', hb, h2⟩
    · rw [hcase]; exact Hc
    · rw [hcase]; exact Hb
    · rw [h2]; exact rtBody_ok_quantitiesNonneg hb Hc
  · intro env a ty s Hb Hc
    rcases @update_cash_holdings_cases env a ty s with hcase | hcase
    · rw [hcase]; exact Hc
    · rw [hcase]; exact Hb
  · intro env t q d mp s s' h0 h hf
    have hb := record_transaction_ok_inv h
    obtain ⟨s1, _, _, hs1, hval, _, _, _⟩ := rtBody_sell_ok (by simp) hb
    obtain ⟨h1, hfind, hle⟩ := validate_sale_ok hval
    obtain ⟨l1, hl1, hseq1⟩ := runStmt_ok hs1
    obtain ⟨_, _, _, hl1e⟩ := insertTrade_ok hl1
    have hh1 : s1.cur.holdings = s.cur.holdings := by rw [hseq1, hl1e]
    rw [hh1, hf] at hfind
    obtain rfl := Option.some.inj hfind
    exact hle
  · intro env t q d mp s s' h0 h hf hq0
    have hb := record_transaction_ok_inv h
    obtain ⟨s1, s2, s3, hs1, hval, hs2, hs3, hs4⟩ := rtBody_sell_ok (by simp) hb
    obtain ⟨l1, hl1, hseq1⟩ := runStmt_ok hs1
    obtain ⟨_, _, _, hl1e⟩ := insertTrade_ok hl1
    have hh1 : s1.cur.holdings = s.cur.holdings := by rw [hseq1, hl1e]
    have hf1 : findHolding s1.cur.holdings t = some h0 := by rw [hh1]; exact hf
    obtain ⟨l2, hl2, hseq2⟩ := runStmt_ok hs2
    have hl2e := updateHoldingsOnSell_ok hf1 hl2
    obtain ⟨l3, hl3, hseq3⟩ := runStmt_ok hs3
    obtain ⟨l4, hl4, hseq4⟩ := runStmt_ok hs4
    have hfind : findHolding s'.cur.holdings t
        = some (sellUpdatedHolding h0 q (env.price t)) := by
      rw [hseq4, insertRealisedDelta_ok hl4, hseq3, insertCash_ok hl3, hseq2, hl2e,
        hh1]
      exact findHolding_setHolding_self hf _
    rw [hfind]
    subst hq0
    simp [sellUpdatedHolding, round2_zero]

/-- Witness for C8: selling all 10 held shares leaves the "T" row in place
with quantity, cost basis and current value exactly zero, and every
holding quantity in the resulting state is non-negative. -/
theorem C8_quantity_invariant_witness :
    findHolding (record_transaction wEnv "T" 10 "SELL" none (some 100)
        wSB).2.cur.holdings "T" = some ⟨0, 100, 100, 0, 0⟩ ∧
    quantitiesNonneg (record_transaction wEnv "T" 10 "SELL" none (some 100)
        wSB).2.cur.holdings := by
  have hf : findHolding wSB.cur.holdings "T" = some ⟨10, 100, 100, 1000, 1000⟩ := by
    rw [wSB_state]; simp [findHolding]
  have hrt1 : (record_transaction wEnv "T" 10 "SELL" none (some 100) wSB).1
      = .returned true := by
    rw [wSB_state]
    simp [record_transaction, rtBody, wEnv, cash_balance, effDate, effPrice, runStmt,
      insertTrade, updateHoldingsOnSell, sellUpdatedHolding, insertCash, validate_sale,
      getAveragePurchasePrice, insertRealisedDelta, findHolding, setHolding,
      holdingChecks, Ledger.empty]
    norm_num [round2, roundHalfAway, findHolding, setHolding, getAveragePurchasePrice,
      runStmt, insertCash, insertRealisedDelta, holdingChecks]
    simp
  have h : record_transaction wEnv "T" 10 "SELL" none (some 100) wSB
      = (.returned true, (record_transaction wEnv "T" 10 "SELL" none (some 100) wSB).2) := by
    rw [← hrt1]
  constructor
  · have h4 := C8_quantity_invariant.2.2.2 wEnv "T" 10 none (some 100) wSB
      (record_transaction wEnv "T" 10 "SELL" none (some 100) wSB).2
      ⟨10, 100, 100, 1000, 1000⟩ h hf rfl
    rw [h4]
    norm_num [wEnv, round2, roundHalfAway]
  · exact C8_quantity_invariant.1 wEnv "T" 10 "SELL" none (some 100) wSB
      (by rw [wSB_state]; intro x hx; simp [Ledger.empty] at hx)
      (by
        rw [wSB_state]
        intro x hx
        rcases List.mem_singleton.mp hx with rfl
        norm_num)
